import Mathlib

/-!
Verification of the MCQ extractor (src/extractor.py).

Strings are modelled as lists of characters (`Str`).  Python's string
operations (strip, split, lower, substring search) and the regular
expressions used by the line classifier and the text normalizer are
translated into executable Lean functions, and the assembly state
machine of `parse_mcqs` is embedded as a fold of `stepLine` over the
document's lines.  Characters are modelled at the ASCII level, which
covers every pattern appearing in the source.
-/

namespace Extractor

abbrev Str := List Char

/-- Convert a Lean string literal into the character-list model. -/
def chars (s : String) : Str := s.data

/-- Characters removed by Python's str.strip with no argument. -/
def isPyWs (c : Char) : Bool :=
  c == ' ' || c == '\t' || c == '\n' || c == '\r' || c == '\x0b' || c == '\x0c'

/-- Remove trailing whitespace. -/
def dropTrailWs (l : Str) : Str := (l.reverse.dropWhile isPyWs).reverse

/-- Python line.strip(): remove leading and trailing whitespace. -/
def pyStrip (l : Str) : Str := dropTrailWs (l.dropWhile isPyWs)

/-- Python line.lower() (ASCII model). -/
def pyLower (l : Str) : Str := l.map Char.toLower

/-- Does the second list start with the first (exact characters)? -/
def litPfx (pat : Str) (l : Str) : Bool :=
  match pat, l with
  | [], _ => true
  | _ :: _, [] => false
  | p :: ps, c :: cs => p == c && litPfx ps cs

/-- Python substring containment, pat in l. -/
def subIn (pat : Str) : Str → Bool
  | [] => pat.isEmpty
  | c :: rest => litPfx pat (c :: rest) || subIn pat rest

/-- Case-insensitive prefix match against a lower-case literal pattern;
returns the remainder of the line after the pattern when it matches. -/
def ciPfx (pat : Str) (l : Str) : Option Str :=
  match pat, l with
  | [], rest => some rest
  | _ :: _, [] => none
  | p :: ps, c :: cs => if c.toLower == p then ciPfx ps cs else none

/-- Helper for Python line.split(): accumulate the current word. -/
def pyWordsAux : Str → Str → List Str
  | [], acc => if acc.isEmpty then [] else [acc.reverse]
  | c :: rest, acc =>
    if isPyWs c then
      if acc.isEmpty then pyWordsAux rest [] else acc.reverse :: pyWordsAux rest []
    else pyWordsAux rest (c :: acc)

/-- Python line.split() with no separator: whitespace-separated words. -/
def pyWords (l : Str) : List Str := pyWordsAux l []

/-- Python line.isupper() (ASCII model): at least one cased character and
no cased character is lower-case. -/
def pyIsUpper (l : Str) : Bool :=
  l.any (fun c => c.isAlpha) && l.all (fun c => !c.isAlpha || c.isUpper)

/-- Python text.split of a newline character: keeps empty pieces, one more
piece than there are newlines. -/
def splitOnNl : Str → List Str
  | [] => [[]]
  | c :: rest =>
    if c == '\n' then [] :: splitOnNl rest
    else
      match splitOnNl rest with
      | [] => [[c]]
      | p :: ps => (c :: p) :: ps

/-! ### Line classifier (src/extractor.py, is_topic / is_question / is_option / is_answer) -/

/-- The topic indicator words of is_topic. -/
def topicIndicators : List Str :=
  [chars "chapter", chars "unit", chars "section", chars "topic", chars "part"]

/-- is_topic (src/extractor.py lines 211-227).  The third heuristic reads
line[0]; on an empty line Python would raise IndexError.  The total
function returns false there; `is_topicC` models the possible failure and
the parser is proved never to reach it (claim C10). -/
def is_topic (l : Str) : Bool :=
  if pyIsUpper l && decide (2 ≤ (pyWords l).length) then true
  else if topicIndicators.any (fun w => subIn w (pyLower l)) then true
  else if decide (l.length < 50) && !(l.contains '?' || l.contains '(' || l.contains ')') then
    match l with
    | [] => false
    | c :: _ => !c.isDigit && !(l.contains ':')
  else false

/-- is_topic with the line[0] access made explicit: none models the
IndexError Python would raise on an empty line. -/
def is_topicC (l : Str) : Option Bool :=
  if pyIsUpper l && decide (2 ≤ (pyWords l).length) then some true
  else if topicIndicators.any (fun w => subIn w (pyLower l)) then some true
  else if decide (l.length < 50) && !(l.contains '?' || l.contains '(' || l.contains ')') then
    match l with
    | [] => none
    | c :: _ => some (!c.isDigit && !(l.contains ':'))
  else some false

/-- Pattern Q digits [.:)] anchored at the start, case-insensitive. -/
def isq1 (l : Str) : Bool :=
  match l with
  | c :: r =>
    (c == 'Q' || c == 'q') &&
      (!(r.takeWhile Char.isDigit).isEmpty &&
        (match r.dropWhile Char.isDigit with
         | c2 :: _ => c2 == '.' || c2 == ':' || c2 == ')'
         | [] => false))
  | [] => false

/-- Pattern Q [.:)] anchored at the start, case-insensitive. -/
def isq2 (l : Str) : Bool :=
  match l with
  | c :: c2 :: _ => (c == 'Q' || c == 'q') && (c2 == '.' || c2 == ':' || c2 == ')')
  | _ => false

/-- Pattern digits [.:)] anchored at the start. -/
def isq3 (l : Str) : Bool :=
  !(l.takeWhile Char.isDigit).isEmpty &&
    (match l.dropWhile Char.isDigit with
     | c :: _ => c == '.' || c == ':' || c == ')'
     | [] => false)

/-- Pattern Question whitespace* digits* [.:] anchored at the start,
case-insensitive. -/
def isq4 (l : Str) : Bool :=
  match ciPfx (chars "question") l with
  | some r =>
    (match (r.dropWhile isPyWs).dropWhile Char.isDigit with
     | c :: _ => c == '.' || c == ':'
     | [] => false)
  | none => false

/-- is_question (src/extractor.py lines 230-248). -/
def is_question (l : Str) : Bool :=
  isq1 l || isq2 l || isq3 l || isq4 l || l.contains '?'

/-- Option letter class A-F or a-f. -/
def isAF (c : Char) : Bool :=
  ('A' ≤ c && c ≤ 'F') || ('a' ≤ c && c ≤ 'f')

/-- A single option letter followed by a closing paren or dot. -/
def optLetterClose : Str → Bool
  | c :: d :: _ => isAF c && (d == ')' || d == '.')
  | _ => false

/-- One or more digits followed by a closing paren or dot. -/
def digitsClose (l : Str) : Bool :=
  !(l.takeWhile Char.isDigit).isEmpty &&
    (match l.dropWhile Char.isDigit with
     | c :: _ => c == ')' || c == '.'
     | [] => false)

/-- Pattern optional open paren, letter A-F, then ) or . -/
def iso1 (l : Str) : Bool :=
  match l with
  | c :: rest => if c == '(' then optLetterClose rest else optLetterClose (c :: rest)
  | [] => false

/-- Pattern optional open paren, digits, then ) or . -/
def iso2 (l : Str) : Bool :=
  match l with
  | c :: rest => if c == '(' then digitsClose rest else digitsClose (c :: rest)
  | [] => false

/-- Pattern open bracket, letter A-F, close bracket. -/
def iso3 (l : Str) : Bool :=
  match l with
  | c :: d :: e :: _ => c == '[' && isAF d && e == ']'
  | _ => false

/-- is_option (src/extractor.py lines 251-264). -/
def is_option (l : Str) : Bool := iso1 l || iso2 l || iso3 l

/-- The answer indicator substrings of is_answer. -/
def ansIndicators : List Str :=
  [chars "answer", chars "correct answer", chars "correct option",
   chars "ans:", chars "ans.", chars "solution", chars "correct:"]

/-- is_answer (src/extractor.py lines 267-275): any indicator occurs in
the lower-cased line. -/
def is_answer (l : Str) : Bool :=
  ansIndicators.any (fun w => subIn w (pyLower l))

/-! ### Text normalizer (clean_topic / clean_question / clean_option / clean_answer) -/

/-- Try a list of lower-case literal words as case-insensitive prefixes,
in order; the regex alternation picks the first word that matches. -/
def firstCiWord (ws : List Str) (l : Str) : Option Str :=
  match ws with
  | [] => none
  | w :: rest =>
    match ciPfx w l with
    | some r => some r
    | none => firstCiWord rest l

/-- Optional [: .] then whitespace*, as at the end of the indicator
regexes. -/
def wordTail (r : Str) : Str :=
  match r with
  | c :: r2 => if c == ':' || c == '.' then r2.dropWhile isPyWs else (c :: r2).dropWhile isPyWs
  | [] => []

/-- Tail of the topic prefix regex: whitespace* digits* [:.]? whitespace*. -/
def topicTail (r : Str) : Str :=
  wordTail ((r.dropWhile isPyWs).dropWhile Char.isDigit)

/-- clean_topic (src/extractor.py lines 278-282): strip one leading
indicator word, optional digits and punctuation, then strip whitespace. -/
def clean_topic (l : Str) : Str :=
  pyStrip (match firstCiWord topicIndicators l with
           | some r => topicTail r
           | none => l)

/-- Tail of the question prefix regex: whitespace* digits* [.:)]
whitespace*; the punctuation character is required. -/
def qTail (r : Str) : Option Str :=
  match (r.dropWhile isPyWs).dropWhile Char.isDigit with
  | c :: r2 => if c == '.' || c == ':' || c == ')' then some (r2.dropWhile isPyWs) else none
  | [] => none

/-- First substitution of clean_question: leading Q or Question, optional
digits, a required [.:)], trailing whitespace; none when no match. -/
def qm1 (l : Str) : Option Str :=
  match l with
  | c :: r =>
    if c == 'Q' || c == 'q' then
      match qTail r with
      | some out => some out
      | none =>
        match ciPfx (chars "question") l with
        | some r2 => qTail r2
        | none => none
    else none
  | [] => none

/-- Second substitution of clean_question: leading digits, a required
[.:)], trailing whitespace; none when no match. -/
def qm2 (l : Str) : Option Str :=
  if (l.takeWhile Char.isDigit).isEmpty then none
  else
    match l.dropWhile Char.isDigit with
    | c :: r2 => if c == '.' || c == ':' || c == ')' then some (r2.dropWhile isPyWs) else none
    | [] => none

/-- clean_question (src/extractor.py lines 285-290): both substitutions,
then strip. -/
def clean_question (l : Str) : Str :=
  pyStrip (match qm2 (match qm1 l with | some r => r | none => l) with
           | some r => r
           | none => match qm1 l with | some r => r | none => l)

/-- Core of the option marker: one letter A-F or digit, a closing
[).]] character, trailing whitespace. -/
def optCore (l : Str) : Option Str :=
  match l with
  | c :: d :: r =>
    if (isAF c || c.isDigit) && (d == ')' || d == '.' || d == ']') then
      some (r.dropWhile isPyWs)
    else none
  | _ => none

/-- The option marker regex of clean_option: optional ( or [, a letter or
digit, a closing [).]] character, trailing whitespace. -/
def optMarker (l : Str) : Option Str :=
  match l with
  | c :: rest => if c == '(' || c == '[' then optCore rest else optCore (c :: rest)
  | [] => none

/-- clean_option (src/extractor.py lines 293-297). -/
def clean_option (l : Str) : Str :=
  pyStrip (match optMarker l with | some r => r | none => l)

/-- The answer indicator words of clean_answer, in regex alternation
order. -/
def ansWords : List Str :=
  [chars "answer", chars "correct answer", chars "correct option",
   chars "ans", chars "solution", chars "correct"]

/-- The answer marker regex of clean_answer: a leading indicator word,
optional [:.], trailing whitespace. -/
def ansMarker (l : Str) : Option Str :=
  match firstCiWord ansWords l with
  | some r => some (wordTail r)
  | none => none

/-- clean_answer (src/extractor.py lines 300-304). -/
def clean_answer (l : Str) : Str :=
  pyStrip (match ansMarker l with | some r => r | none => l)

/-! ### Data model -/

/-- An extracted image asset: page, intra-page index, storage path. -/
structure ImageAsset where
  page : Nat
  index : Nat
  path : Str
deriving DecidableEq

/-- A question record as built by parse_mcqs. -/
structure Question where
  question : Str
  options : List Str
  answer : Option Str
  image : Option Str
  video_link : Option Str
deriving DecidableEq

/-- A topic record: name plus its list of questions. -/
structure Topic where
  topic : Str
  questions : List Question
deriving DecidableEq

/-- The mutable state of the parse_mcqs loop. -/
structure PState where
  structured_data : List Topic
  current_topic : Option Str
  current_question : Option Question
  current_options : List Str
  question_counter : Nat
  image_counter : Nat
deriving DecidableEq

/-- Initial state of parse_mcqs (src/extractor.py lines 125-130). -/
def initState : PState :=
  { structured_data := []
    current_topic := none
    current_question := none
    current_options := []
    question_counter := 0
    image_counter := 0 }

/-! ### save_question and the assembly steps -/

/-- Python topic or General Questions: both None and the empty string are
falsy, so both fall back to the literal. -/
def topicOrDefault (t : Option Str) : Str :=
  match t with
  | some s => if s.isEmpty then chars "General Questions" else s
  | none => chars "General Questions"

/-- Asset correlation inside save_question (src/extractor.py lines
313-319): images[k] and links[k] are used when the index is in range,
otherwise the fields are left as they are. -/
def correlate_assets (q : Question) (images : List ImageAsset) (links : List Str)
    (image_index : Nat) : Question :=
  match images.get? image_index, links.get? image_index with
  | some a, some u => { q with image := some a.path, video_link := some u }
  | some a, none => { q with image := some a.path }
  | none, some u => { q with video_link := some u }
  | none, none => q

/-- Append a question to the questions of the last topic record. -/
def appendQuestionToLast : List Topic → Question → List Topic
  | [], _ => []
  | [t], q => [{ t with questions := t.questions ++ [q] }]
  | t :: t2 :: ts, q => t :: appendQuestionToLast (t2 :: ts) q

/-- save_question (src/extractor.py lines 307-329): attach the options,
correlate assets by image_index, synthesize a default topic when the
output is still empty, and append the question to the last topic. -/
def save_question (structured_data : List Topic) (topic : Option Str) (question : Question)
    (options : List Str) (images : List ImageAsset) (links : List Str)
    (image_index : Nat) : List Topic :=
  appendQuestionToLast
    (if structured_data.isEmpty then
       structured_data ++ [{ topic := topicOrDefault topic, questions := [] }]
     else structured_data)
    (correlate_assets { question with options := options } images links image_index)

/-- Append a continuation chunk to the last accumulated option. -/
def appendToLastStr : List Str → Str → List Str
  | [], _ => []
  | [o], suf => [o ++ suf]
  | o :: o2 :: os, suf => o :: appendToLastStr (o2 :: os) suf

/-- Commit performed at a topic boundary (src/extractor.py lines 140-145):
save the open question and clear it; the image counter is NOT advanced. -/
def commitOnTopic (images : List ImageAsset) (links : List Str) (st : PState) : PState :=
  match st.current_question with
  | some q =>
    { st with
      structured_data :=
        save_question st.structured_data st.current_topic q st.current_options
          images links st.image_counter
      current_question := none
      current_options := [] }
  | none => st

/-- New-topic bookkeeping (src/extractor.py lines 147-152). -/
def afterTopic (st : PState) (line : Str) : PState :=
  { st with
    current_topic := some (clean_topic line)
    structured_data := st.structured_data ++ [{ topic := clean_topic line, questions := [] }] }

/-- Commit performed at a question boundary (src/extractor.py lines
157-161): save the open question and advance the image counter. -/
def commitOnQuestion (images : List ImageAsset) (links : List Str) (st : PState) : PState :=
  match st.current_question with
  | some q =>
    { st with
      structured_data :=
        save_question st.structured_data st.current_topic q st.current_options
          images links st.image_counter
      image_counter := st.image_counter + 1 }
  | none => st

/-- New-question bookkeeping (src/extractor.py lines 163-172). -/
def afterQuestion (st : PState) (line : Str) : PState :=
  { st with
    current_question :=
      some { question := clean_question line, options := [], answer := none,
             image := none, video_link := none }
    current_options := []
    question_counter := st.question_counter + 1 }

/-- Answer assignment (src/extractor.py lines 182-185): overwrites any
previously stored answer. -/
def setAnswer (st : PState) (line : Str) : PState :=
  match st.current_question with
  | some q => { st with current_question := some { q with answer := some (clean_answer line) } }
  | none => st

/-- Continuation handling (src/extractor.py lines 187-194): extend the
last option when options exist, else extend a non-empty question text,
else drop the line. -/
def continueLine (st : PState) (line : Str) : PState :=
  if !st.current_options.isEmpty then
    { st with current_options := appendToLastStr st.current_options (' ' :: line) }
  else
    match st.current_question with
    | some q =>
      if q.question.isEmpty then st
      else { st with current_question := some { q with question := q.question ++ ' ' :: line } }
    | none => st

/-- One iteration of the parse_mcqs line loop (src/extractor.py lines
132-194). -/
def stepLine (images : List ImageAsset) (links : List Str) (st : PState) (rawLine : Str) :
    PState :=
  if pyStrip rawLine = [] then st
  else if is_topic (pyStrip rawLine) then
    afterTopic (commitOnTopic images links st) (pyStrip rawLine)
  else if is_question (pyStrip rawLine) then
    afterQuestion (commitOnQuestion images links st) (pyStrip rawLine)
  else if st.current_question.isSome && is_option (pyStrip rawLine) then
    { st with current_options := st.current_options ++ [clean_option (pyStrip rawLine)] }
  else if st.current_question.isSome && is_answer (pyStrip rawLine) then
    setAnswer st (pyStrip rawLine)
  else if st.current_question.isSome && !is_option (pyStrip rawLine)
      && !is_answer (pyStrip rawLine) then
    continueLine st (pyStrip rawLine)
  else st

/-- Fold of stepLine over the document's lines. -/
def runLines (images : List ImageAsset) (links : List Str) (st : PState)
    (lines : List Str) : PState :=
  lines.foldl (stepLine images links) st

/-- End-of-input commit (src/extractor.py lines 196-199): a still-open
question is saved with the current image counter, with no increment. -/
def endCommit (images : List ImageAsset) (links : List Str) (st : PState) : List Topic :=
  match st.current_question with
  | some q =>
    save_question st.structured_data st.current_topic q st.current_options
      images links st.image_counter
  | none => st.structured_data

/-- The structured data of parse_mcqs before the final empty-topic
filter. -/
def parse_pre (text : Str) (images : List ImageAsset) (links : List Str) : List Topic :=
  endCommit images links (runLines images links initState (splitOnNl text))

/-- Final filter of parse_mcqs (src/extractor.py lines 201-208): drop
topics with no questions; an empty result is returned as the empty
list. -/
def finalize (sd : List Topic) : List Topic :=
  if (sd.filter (fun t => !t.questions.isEmpty)).isEmpty then []
  else sd.filter (fun t => !t.questions.isEmpty)

/-- parse_mcqs (src/extractor.py lines 112-208). -/
def parse_mcqs (text : Str) (images : List ImageAsset) (links : List Str) : List Topic :=
  finalize (parse_pre text images links)

/-- Model of extract_mcqs_from_pdf (src/extractor.py lines 15-57).  The
document-reading collaborators (fitz text, image and link extraction) are
abstracted as an input that either yields the page-ordered text, images
and links, or fails; the try/except of the source catches every failure
and returns the empty list. -/
def extract_mcqs_from_pdf (doc : Except Str (Str × List ImageAsset × List Str)) :
    List Topic :=
  match doc with
  | Except.ok r => parse_mcqs r.1 r.2.1 r.2.2
  | Except.error _ => []

/-! ### Commit trace

An instrumented view of the same machine: `emits` records, for each
processed line, the save_question calls the line triggers together with
the image_counter value passed to each, and what kind of boundary
triggered the commit.  `parse_trace` is the resulting commit log of a
whole document. -/

/-- What kind of boundary triggered a commit. -/
inductive CommitKind where
  | topicLine : CommitKind
  | questionLine : CommitKind
  | endOfInput : CommitKind
deriving DecidableEq

/-- The commits triggered while processing one line: a commit happens
exactly when the line is a boundary (topic or question) and a question is
open, and it receives the current image_counter. -/
def emits (st : PState) (rawLine : Str) : List (CommitKind × Nat) :=
  if pyStrip rawLine = [] then []
  else if is_topic (pyStrip rawLine) then
    match st.current_question with
    | some _ => [(CommitKind.topicLine, st.image_counter)]
    | none => []
  else if is_question (pyStrip rawLine) then
    match st.current_question with
    | some _ => [(CommitKind.questionLine, st.image_counter)]
    | none => []
  else []

/-- Number of commits in a trace that were triggered by a question line:
these are exactly the commits after which image_counter is advanced. -/
def countQ : List (CommitKind × Nat) → Nat
  | [] => 0
  | e :: tr => (if e.1 = CommitKind.questionLine then 1 else 0) + countQ tr

/-- One instrumented step: the ordinary step plus the emitted commits. -/
def stepT (images : List ImageAsset) (links : List Str)
    (ac : PState × List (CommitKind × Nat)) (l : Str) : PState × List (CommitKind × Nat) :=
  (stepLine images links ac.1 l, ac.2 ++ emits ac.1 l)

/-- Instrumented fold over the document's lines. -/
def runLinesT (images : List ImageAsset) (links : List Str)
    (ac : PState × List (CommitKind × Nat)) (lines : List Str) :
    PState × List (CommitKind × Nat) :=
  lines.foldl (stepT images links) ac

/-- Add the end-of-input commit, when a question is still open. -/
def traceOf (ac : PState × List (CommitKind × Nat)) : List (CommitKind × Nat) :=
  match ac.1.current_question with
  | some _ => ac.2 ++ [(CommitKind.endOfInput, ac.1.image_counter)]
  | none => ac.2

/-- The commit log of a full parse_mcqs run, in commit order. -/
def parse_trace (text : Str) (images : List ImageAsset) (links : List Str) :
    List (CommitKind × Nat) :=
  traceOf (runLinesT images links (initState, []) (splitOnNl text))

/-! ### Checked variant

The same parser with every list access that could fail in Python made
explicit: `none` models an uncaught IndexError.  `is_topicC` models the
line[0] access of is_topic, `appendToLastStrC` the current_options[-1]
access of the continuation branch, and `appendQuestionToLastC` the
structured_data[-1] access of save_question.  Claim C10 proves the
checked parser never fails and agrees with `parse_mcqs`. -/

/-- appendQuestionToLast with the access to the last element made
explicit: none on an empty list. -/
def appendQuestionToLastC : List Topic → Question → Option (List Topic)
  | [], _ => none
  | [t], q => some [{ t with questions := t.questions ++ [q] }]
  | t :: t2 :: ts, q =>
    match appendQuestionToLastC (t2 :: ts) q with
    | some r => some (t :: r)
    | none => none

/-- appendToLastStr with the access to the last element made explicit:
none on an empty list. -/
def appendToLastStrC : List Str → Str → Option (List Str)
  | [], _ => none
  | [o], suf => some [o ++ suf]
  | o :: o2 :: os, suf =>
    match appendToLastStrC (o2 :: os) suf with
    | some r => some (o :: r)
    | none => none

/-- Checked save_question. -/
def save_questionC (structured_data : List Topic) (topic : Option Str) (question : Question)
    (options : List Str) (images : List ImageAsset) (links : List Str)
    (image_index : Nat) : Option (List Topic) :=
  appendQuestionToLastC
    (if structured_data.isEmpty then
       structured_data ++ [{ topic := topicOrDefault topic, questions := [] }]
     else structured_data)
    (correlate_assets { question with options := options } images links image_index)

/-- Checked commit at a topic boundary. -/
def commitOnTopicC (images : List ImageAsset) (links : List Str) (st : PState) :
    Option PState :=
  match st.current_question with
  | some q =>
    (match save_questionC st.structured_data st.current_topic q st.current_options
        images links st.image_counter with
     | some sd => some { st with structured_data := sd, current_question := none,
                                 current_options := [] }
     | none => none)
  | none => some st

/-- Checked commit at a question boundary. -/
def commitOnQuestionC (images : List ImageAsset) (links : List Str) (st : PState) :
    Option PState :=
  match st.current_question with
  | some q =>
    (match save_questionC st.structured_data st.current_topic q st.current_options
        images links st.image_counter with
     | some sd => some { st with structured_data := sd,
                                 image_counter := st.image_counter + 1 }
     | none => none)
  | none => some st

/-- Checked continuation handling. -/
def continueLineC (st : PState) (line : Str) : Option PState :=
  if !st.current_options.isEmpty then
    (match appendToLastStrC st.current_options (' ' :: line) with
     | some os => some { st with current_options := os }
     | none => none)
  else
    match st.current_question with
    | some q =>
      if q.question.isEmpty then some st
      else some { st with current_question := some { q with question := q.question ++ ' ' :: line } }
    | none => some st

/-- Checked line step. -/
def stepLineC (images : List ImageAsset) (links : List Str) (st : PState) (rawLine : Str) :
    Option PState :=
  if pyStrip rawLine = [] then some st
  else
    match is_topicC (pyStrip rawLine) with
    | none => none
    | some b =>
      if b then
        (match commitOnTopicC images links st with
         | some st1 => some (afterTopic st1 (pyStrip rawLine))
         | none => none)
      else if is_question (pyStrip rawLine) then
        (match commitOnQuestionC images links st with
         | some st1 => some (afterQuestion st1 (pyStrip rawLine))
         | none => none)
      else if st.current_question.isSome && is_option (pyStrip rawLine) then
        some { st with current_options := st.current_options ++ [clean_option (pyStrip rawLine)] }
      else if st.current_question.isSome && is_answer (pyStrip rawLine) then
        some (setAnswer st (pyStrip rawLine))
      else if st.current_question.isSome && !is_option (pyStrip rawLine)
          && !is_answer (pyStrip rawLine) then
        continueLineC st (pyStrip rawLine)
      else some st

/-- Checked fold over the document's lines. -/
def runLinesC (images : List ImageAsset) (links : List Str) :
    PState → List Str → Option PState
  | st, [] => some st
  | st, l :: ls =>
    match stepLineC images links st l with
    | some st1 => runLinesC images links st1 ls
    | none => none

/-- Checked parse_mcqs: none would mean an uncaught list-index error
somewhere in the run. -/
def parse_mcqsC (text : Str) (images : List ImageAsset) (links : List Str) :
    Option (List Topic) :=
  match runLinesC images links initState (splitOnNl text) with
  | none => none
  | some stF =>
    match stF.current_question with
    | some q =>
      (match save_questionC stF.structured_data stF.current_topic q stF.current_options
          images links stF.image_counter with
       | some sd => some (finalize sd)
       | none => none)
    | none => some (finalize stF.structured_data)

/-! ### Concrete inputs used by counterexamples and witnesses -/

/-- A document whose first question is committed by a topic boundary. -/
def c1txt : Str := chars "1. a?\nAAA BBB\n2. b?"

/-- Two distinct images. -/
def c1imgs : List ImageAsset := [⟨0, 0, chars "i0"⟩, ⟨0, 1, chars "i1"⟩]

/-- A document with two answer lines for one question. -/
def c2txt : Str := chars "1. q?\nAnswer: a\nAnswer: b"

/-- An open question that already has a stored answer. -/
def c2q : Question :=
  { question := chars "q?", options := [], answer := some (chars "a"),
    image := none, video_link := none }

/-- A state with c2q open. -/
def c2st : PState := { initState with current_question := some c2q }

/-- The end-to-end scenario input of the specification. -/
def c3txt : Str :=
  chars "UNIT ONE KINEMATICS\nQ1. What is speed?\n(a) Distance\n(b) Distance/Time\n(c) Time/Distance\nAnswer: b"

/-- A question with no assets assigned yet. -/
def c4q : Question :=
  { question := chars "x", options := [], answer := none, image := none, video_link := none }

/-- A single-image asset list. -/
def c4imgs : List ImageAsset := [⟨0, 0, chars "p"⟩]

/-- A question line that normalizes to the empty string, followed by a
continuation line. -/
def c5txt : Str := chars "1.\nfoo: bar"

/-- An open question with non-empty text. -/
def c5q : Question :=
  { question := chars "What is X", options := [], answer := none,
    image := none, video_link := none }

/-- A state with c5q open. -/
def c5st : PState := { initState with current_question := some c5q }

/-- Two adjacent topic lines followed by one question. -/
def c6txt : Str := chars "AAA BBB\nCCC DDD\n1. q?"

/-- A string that is fixed by all three normalizers. -/
def c7str : Str := chars "hello world"

/-- A document in which no line classifies as a question: a plain topic
line, an all-caps line containing a question mark (it satisfies both the
topic and the question predicate and classifies as Topic by priority),
and a line matching no classifier. -/
def c8txt : Str := chars "AAA BBB\nWHAT IS SPEED?\nfoo: bar"

/-! ### Basic lemmas about the string model -/

lemma dropWhile_dropWhile (p : Char → Bool) (l : List Char) :
    (l.dropWhile p).dropWhile p = l.dropWhile p := by
  induction l with
  | nil => rfl
  | cons c t ih =>
    by_cases h : p c
    · simp [List.dropWhile_cons, h, ih]
    · simp [List.dropWhile_cons, h]

lemma dropWhile_of_pfx_of_dropWhile {p : Char → Bool} {s t : List Char}
    (hpre : s <+: t) (ht : t.dropWhile p = t) : s.dropWhile p = s := by
  obtain ⟨u, rfl⟩ := hpre
  cases s with
  | nil => rfl
  | cons a t2 =>
    rw [List.cons_append, List.dropWhile_cons] at ht
    by_cases hp : p a
    · rw [if_pos hp] at ht
      have hlen : ((t2 ++ u).dropWhile p).length = (t2 ++ u).length + 1 := by
        rw [ht, List.length_cons]
      have hle := (List.dropWhile_suffix (l := t2 ++ u) p).length_le
      omega
    · rw [List.dropWhile_cons, if_neg hp]

lemma dropTrailWs_pfx (l : List Char) : dropTrailWs l <+: l := by
  obtain ⟨u, hu⟩ := List.dropWhile_suffix (l := l.reverse) isPyWs
  exact ⟨u.reverse, by rw [dropTrailWs, ← List.reverse_append, hu, List.reverse_reverse]⟩

lemma pyStrip_noLead (l : List Char) : (pyStrip l).dropWhile isPyWs = pyStrip l := by
  unfold pyStrip
  exact dropWhile_of_pfx_of_dropWhile (dropTrailWs_pfx _) (dropWhile_dropWhile _ _)

lemma pyStrip_noTrail (l : List Char) : dropTrailWs (pyStrip l) = pyStrip l := by
  unfold pyStrip dropTrailWs
  rw [List.reverse_reverse, dropWhile_dropWhile]

lemma pyStrip_idem (l : List Char) : pyStrip (pyStrip l) = pyStrip l := by
  show dropTrailWs ((pyStrip l).dropWhile isPyWs) = pyStrip l
  rw [pyStrip_noLead, pyStrip_noTrail]

/-! ### The checked parser agrees with the parser -/

lemma is_topicC_of_ne (l : Str) (h : l ≠ []) : is_topicC l = some (is_topic l) := by
  cases l with
  | nil => exact absurd rfl h
  | cons c cs =>
    simp only [is_topicC, is_topic]
    split_ifs <;> rfl

lemma appendQuestionToLastC_eq (sd : List Topic) (q : Question) (h : sd ≠ []) :
    appendQuestionToLastC sd q = some (appendQuestionToLast sd q) := by
  induction sd with
  | nil => exact absurd rfl h
  | cons t ts ih =>
    cases ts with
    | nil => rfl
    | cons t2 ts2 =>
      simp only [appendQuestionToLastC, appendQuestionToLast]
      rw [ih (List.cons_ne_nil _ _)]

lemma appendToLastStrC_eq (os : List Str) (suf : Str) (h : os ≠ []) :
    appendToLastStrC os suf = some (appendToLastStr os suf) := by
  induction os with
  | nil => exact absurd rfl h
  | cons o os2 ih =>
    cases os2 with
    | nil => rfl
    | cons o2 os3 =>
      simp only [appendToLastStrC, appendToLastStr]
      rw [ih (List.cons_ne_nil _ _)]

lemma save_questionC_eq (sd : List Topic) (t : Option Str) (q : Question) (o : List Str)
    (images : List ImageAsset) (links : List Str) (k : Nat) :
    save_questionC sd t q o images links k = some (save_question sd t q o images links k) := by
  unfold save_questionC save_question
  apply appendQuestionToLastC_eq
  cases sd <;> simp

lemma commitOnTopicC_eq (images : List ImageAsset) (links : List Str) (st : PState) :
    commitOnTopicC images links st = some (commitOnTopic images links st) := by
  rcases h : st.current_question with _ | q <;>
    simp [commitOnTopicC, commitOnTopic, h, save_questionC_eq]

lemma commitOnQuestionC_eq (images : List ImageAsset) (links : List Str) (st : PState) :
    commitOnQuestionC images links st = some (commitOnQuestion images links st) := by
  rcases h : st.current_question with _ | q <;>
    simp [commitOnQuestionC, commitOnQuestion, h, save_questionC_eq]

lemma continueLineC_eq (st : PState) (line : Str) :
    continueLineC st line = some (continueLine st line) := by
  unfold continueLineC continueLine
  cases hop : st.current_options.isEmpty with
  | true =>
    simp only [hop, Bool.not_true, Bool.false_eq_true, if_false]
    cases h : st.current_question with
    | none => rfl
    | some q =>
      dsimp only
      split_ifs <;> rfl
  | false =>
    have hne : st.current_options ≠ [] := by
      intro hh
      rw [hh] at hop
      simp at hop
    simp only [hop, Bool.not_false, if_true]
    rw [appendToLastStrC_eq _ _ hne]

lemma stepLineC_eq (images : List ImageAsset) (links : List Str) (st : PState) (rawLine : Str) :
    stepLineC images links st rawLine = some (stepLine images links st rawLine) := by
  unfold stepLineC stepLine
  by_cases h0 : pyStrip rawLine = []
  · rw [if_pos h0, if_pos h0]
  · rw [if_neg h0, if_neg h0, is_topicC_of_ne _ h0]
    by_cases ht : is_topic (pyStrip rawLine)
    · simp only [ht, if_pos, commitOnTopicC_eq]
    · simp only [ht, if_neg, Bool.false_eq_true]
      by_cases hq : is_question (pyStrip rawLine)
      · simp [hq, commitOnQuestionC_eq]
      · simp only [hq, if_neg, Bool.false_eq_true, if_false]
        split_ifs <;> first | rfl | exact continueLineC_eq st (pyStrip rawLine)

lemma runLinesC_eq (images : List ImageAsset) (links : List Str) (lines : List Str) :
    ∀ st : PState, runLinesC images links st lines = some (runLines images links st lines) := by
  induction lines with
  | nil => intro st; rfl
  | cons l ls ih =>
    intro st
    simp only [runLinesC, stepLineC_eq, runLines, List.foldl_cons]
    exact ih (stepLine images links st l)

/-! ### Per-branch facts about the step function -/

lemma commitOnTopic_none (images : List ImageAsset) (links : List Str) (st : PState)
    (h : st.current_question = none) : commitOnTopic images links st = st := by
  unfold commitOnTopic
  rw [h]

lemma commitOnTopic_img (images : List ImageAsset) (links : List Str) (st : PState) :
    (commitOnTopic images links st).image_counter = st.image_counter := by
  unfold commitOnTopic
  cases h : st.current_question <;> rfl

lemma commitOnTopic_cq (images : List ImageAsset) (links : List Str) (st : PState) :
    (commitOnTopic images links st).current_question = none := by
  unfold commitOnTopic
  cases h : st.current_question with
  | none => exact h
  | some q => rfl

lemma commitOnQuestion_none (images : List ImageAsset) (links : List Str) (st : PState)
    (h : st.current_question = none) : commitOnQuestion images links st = st := by
  unfold commitOnQuestion
  rw [h]

lemma commitOnQuestion_img (images : List ImageAsset) (links : List Str) (st : PState)
    (q : Question) (h : st.current_question = some q) :
    (commitOnQuestion images links st).image_counter = st.image_counter + 1 := by
  unfold commitOnQuestion
  rw [h]

lemma afterTopic_img (st : PState) (line : Str) :
    (afterTopic st line).image_counter = st.image_counter := rfl

lemma afterTopic_sd (st : PState) (line : Str) :
    (afterTopic st line).structured_data
      = st.structured_data ++ [{ topic := clean_topic line, questions := [] }] := rfl

lemma afterTopic_cq (st : PState) (line : Str) :
    (afterTopic st line).current_question = st.current_question := rfl

lemma afterQuestion_img (st : PState) (line : Str) :
    (afterQuestion st line).image_counter = st.image_counter := rfl

lemma afterQuestion_sd (st : PState) (line : Str) :
    (afterQuestion st line).structured_data = st.structured_data := rfl

lemma setAnswer_sd (st : PState) (line : Str) :
    (setAnswer st line).structured_data = st.structured_data := by
  unfold setAnswer
  cases h : st.current_question <;> rfl

lemma setAnswer_img (st : PState) (line : Str) :
    (setAnswer st line).image_counter = st.image_counter := by
  unfold setAnswer
  cases h : st.current_question <;> rfl

lemma continueLine_sd (st : PState) (line : Str) :
    (continueLine st line).structured_data = st.structured_data := by
  unfold continueLine
  split_ifs
  · rfl
  · cases h : st.current_question with
    | none => rfl
    | some q =>
      dsimp only
      split_ifs <;> rfl

lemma continueLine_img (st : PState) (line : Str) :
    (continueLine st line).image_counter = st.image_counter := by
  unfold continueLine
  split_ifs
  · rfl
  · cases h : st.current_question with
    | none => rfl
    | some q =>
      dsimp only
      split_ifs <;> rfl

lemma stepLine_topic (images : List ImageAsset) (links : List Str) (st : PState) (rawLine : Str)
    (h0 : pyStrip rawLine ≠ []) (ht : is_topic (pyStrip rawLine) = true) :
    stepLine images links st rawLine
      = afterTopic (commitOnTopic images links st) (pyStrip rawLine) := by
  unfold stepLine
  rw [if_neg h0, if_pos ht]

/-! ### The commit counter invariant (for the asset-correlation trace) -/

lemma countQ_nil : countQ [] = 0 := rfl

lemma countQ_topic (n : Nat) : countQ [(CommitKind.topicLine, n)] = 0 := rfl

lemma countQ_q (n : Nat) : countQ [(CommitKind.questionLine, n)] = 1 := rfl

lemma countQ_end (n : Nat) : countQ [(CommitKind.endOfInput, n)] = 0 := rfl

lemma countQ_append (a b : List (CommitKind × Nat)) :
    countQ (a ++ b) = countQ a + countQ b := by
  induction a with
  | nil => simp [countQ]
  | cons e t ih => simp [countQ, ih, Nat.add_assoc]

lemma stepLine_counter (images : List ImageAsset) (links : List Str) (st : PState)
    (rawLine : Str) :
    (stepLine images links st rawLine).image_counter
      = st.image_counter + countQ (emits st rawLine) := by
  unfold stepLine emits
  by_cases h0 : pyStrip rawLine = []
  · rw [if_pos h0, if_pos h0, countQ_nil]
    omega
  · rw [if_neg h0, if_neg h0]
    by_cases ht : is_topic (pyStrip rawLine)
    · rw [if_pos ht, if_pos ht, afterTopic_img, commitOnTopic_img]
      cases h : st.current_question with
      | none => simp [countQ_nil]
      | some q => simp [countQ_topic]
    · rw [if_neg ht, if_neg ht]
      by_cases hq : is_question (pyStrip rawLine)
      · rw [if_pos hq, if_pos hq, afterQuestion_img]
        cases h : st.current_question with
        | none =>
          rw [commitOnQuestion_none images links st h]
          simp [countQ_nil]
        | some q =>
          rw [commitOnQuestion_img images links st q h]
          simp [countQ_q]
      · rw [if_neg hq, if_neg hq, countQ_nil, Nat.add_zero]
        split_ifs
        · rfl
        · rw [setAnswer_img]
        · rw [continueLine_img]
        · rfl

/-- The indices already recorded in a trace are each the number of
question-line commits occurring before them. -/
def goodTrace (tr : List (CommitKind × Nat)) : Prop :=
  ∀ k e, tr.get? k = some e → e.2 = countQ (tr.take k)

lemma goodTrace_nil : goodTrace [] := by
  intro k e h
  simp at h

lemma goodTrace_snoc (tr : List (CommitKind × Nat)) (e : CommitKind × Nat)
    (hg : goodTrace tr) (he : e.2 = countQ tr) : goodTrace (tr ++ [e]) := by
  intro k x hx
  rcases Nat.lt_trichotomy k tr.length with hk | hk | hk
  · rw [List.get?_append hk] at hx
    rw [List.take_append_eq_append_take, Nat.sub_eq_zero_of_le (Nat.le_of_lt hk),
      List.take_zero, List.append_nil]
    exact hg k x hx
  · subst hk
    rw [List.get?_concat_length] at hx
    rw [List.take_append_eq_append_take, Nat.sub_self, List.take_zero, List.append_nil,
      List.take_length]
    cases hx
    exact he
  · have hlen : (tr ++ [e]).length ≤ k := by
      rw [List.length_append, List.length_singleton]
      omega
    rw [List.get?_eq_none.mpr hlen] at hx
    cases hx

lemma emits_shape (st : PState) (rawLine : Str) :
    emits st rawLine = [] ∨
      (∃ k, emits st rawLine = [(k, st.image_counter)]) := by
  unfold emits
  by_cases h0 : pyStrip rawLine = []
  · rw [if_pos h0]
    exact Or.inl rfl
  · rw [if_neg h0]
    by_cases ht : is_topic (pyStrip rawLine)
    · rw [if_pos ht]
      cases h : st.current_question with
      | none => exact Or.inl rfl
      | some q => exact Or.inr ⟨CommitKind.topicLine, rfl⟩
    · rw [if_neg ht]
      by_cases hq : is_question (pyStrip rawLine)
      · rw [if_pos hq]
        cases h : st.current_question with
        | none => exact Or.inl rfl
        | some q => exact Or.inr ⟨CommitKind.questionLine, rfl⟩
      · rw [if_neg hq]
        exact Or.inl rfl

lemma stepT_inv (images : List ImageAsset) (links : List Str)
    (ac : PState × List (CommitKind × Nat)) (l : Str)
    (h1 : ac.1.image_counter = countQ ac.2) (h2 : goodTrace ac.2) :
    (stepT images links ac l).1.image_counter = countQ (stepT images links ac l).2 ∧
      goodTrace (stepT images links ac l).2 := by
  obtain ⟨st, tr⟩ := ac
  rcases emits_shape st l with he | ⟨k, he⟩
  · constructor
    · simp only [stepT, he, List.append_nil]
      rw [stepLine_counter, he, countQ_nil, Nat.add_zero]
      exact h1
    · simpa [stepT, he] using h2
  · constructor
    · simp only [stepT]
      rw [stepLine_counter, he, countQ_append, h1]
    · simp only [stepT, he]
      exact goodTrace_snoc tr (k, st.image_counter) h2 h1

lemma runLinesT_inv (images : List ImageAsset) (links : List Str) (lines : List Str) :
    ∀ ac : PState × List (CommitKind × Nat),
      ac.1.image_counter = countQ ac.2 → goodTrace ac.2 →
      (runLinesT images links ac lines).1.image_counter
          = countQ (runLinesT images links ac lines).2 ∧
        goodTrace (runLinesT images links ac lines).2 := by
  induction lines with
  | nil => exact fun ac h1 h2 => ⟨h1, h2⟩
  | cons l ls ih =>
    intro ac h1 h2
    have hstep := stepT_inv images links ac l h1 h2
    simpa [runLinesT, List.foldl_cons] using
      ih (stepT images links ac l) hstep.1 hstep.2

lemma goodTrace_parse (text : Str) (images : List ImageAsset) (links : List Str) :
    goodTrace (parse_trace text images links) := by
  have hrun := runLinesT_inv images links (splitOnNl text) (initState, []) rfl goodTrace_nil
  unfold parse_trace traceOf
  cases h : (runLinesT images links (initState, []) (splitOnNl text)).1.current_question with
  | none => exact hrun.2
  | some q => exact goodTrace_snoc _ _ hrun.2 hrun.1

/-! ### Frozen non-last topics -/

lemma appendQuestionToLast_length (sd : List Topic) (q : Question) :
    (appendQuestionToLast sd q).length = sd.length := by
  induction sd with
  | nil => rfl
  | cons t ts ih =>
    cases ts with
    | nil => rfl
    | cons t2 ts2 => simpa [appendQuestionToLast] using ih

lemma appendQuestionToLast_get (sd : List Topic) (q : Question) (p : Nat)
    (h : p + 1 < sd.length) :
    (appendQuestionToLast sd q).get? p = sd.get? p := by
  induction sd generalizing p with
  | nil => simp at h
  | cons t ts ih =>
    cases ts with
    | nil => simp at h
    | cons t2 ts2 =>
      cases p with
      | zero => rfl
      | succ p2 =>
        show (t :: appendQuestionToLast (t2 :: ts2) q).get? (p2 + 1)
            = (t :: t2 :: ts2).get? (p2 + 1)
        rw [List.get?_cons_succ, List.get?_cons_succ]
        exact ih p2 (by simp at h ⊢; omega)

lemma save_question_frozen (sd : List Topic) (t : Option Str) (q : Question) (o : List Str)
    (images : List ImageAsset) (links : List Str) (k p : Nat) (h : p + 1 < sd.length) :
    (save_question sd t q o images links k).get? p = sd.get? p ∧
      (save_question sd t q o images links k).length = sd.length := by
  cases sd with
  | nil => simp at h
  | cons t0 ts =>
    unfold save_question
    rw [List.isEmpty_cons]
    simp only [Bool.false_eq_true, if_false]
    exact ⟨appendQuestionToLast_get _ _ _ h, appendQuestionToLast_length _ _⟩

lemma stepLine_frozen (images : List ImageAsset) (links : List Str) (st : PState)
    (rawLine : Str) (p : Nat) (h : p + 1 < st.structured_data.length) :
    (stepLine images links st rawLine).structured_data.get? p
        = st.structured_data.get? p ∧
      p + 1 < (stepLine images links st rawLine).structured_data.length := by
  unfold stepLine
  split_ifs with h0 ht hq hopt hans hcont
  · exact ⟨rfl, h⟩
  · rw [afterTopic_sd]
    unfold commitOnTopic
    cases hcq : st.current_question with
    | none =>
      dsimp only
      refine ⟨List.get?_append (by omega), ?_⟩
      rw [List.length_append, List.length_singleton]
      omega
    | some q =>
      dsimp only
      have hs := save_question_frozen st.structured_data st.current_topic q
        st.current_options images links st.image_counter p h
      refine ⟨?_, ?_⟩
      · rw [List.get?_append (by rw [hs.2]; omega)]
        exact hs.1
      · rw [List.length_append, List.length_singleton, hs.2]
        omega
  · rw [afterQuestion_sd]
    unfold commitOnQuestion
    cases hcq : st.current_question with
    | none => exact ⟨rfl, h⟩
    | some q =>
      dsimp only
      have hs := save_question_frozen st.structured_data st.current_topic q
        st.current_options images links st.image_counter p h
      exact ⟨hs.1, by rw [hs.2]; exact h⟩
  · exact ⟨rfl, h⟩
  · rw [setAnswer_sd]
    exact ⟨rfl, h⟩
  · rw [continueLine_sd]
    exact ⟨rfl, h⟩
  · exact ⟨rfl, h⟩

lemma runLines_append (images : List ImageAsset) (links : List Str) (st : PState)
    (a b : List Str) :
    runLines images links st (a ++ b) = runLines images links (runLines images links st a) b := by
  simp [runLines, List.foldl_append]

lemma runLines_single (images : List ImageAsset) (links : List Str) (st : PState) (l : Str) :
    runLines images links st [l] = stepLine images links st l := rfl

lemma runLines_frozen (images : List ImageAsset) (links : List Str) (lines : List Str) :
    ∀ (st : PState) (p : Nat), p + 1 < st.structured_data.length →
      (runLines images links st lines).structured_data.get? p
          = st.structured_data.get? p ∧
        p + 1 < (runLines images links st lines).structured_data.length := by
  induction lines with
  | nil => exact fun st p h => ⟨rfl, h⟩
  | cons l ls ih =>
    intro st p h
    have hs := stepLine_frozen images links st l p h
    have hr := ih (stepLine images links st l) p hs.2
    constructor
    · show (runLines images links (stepLine images links st l) ls).structured_data.get? p
          = st.structured_data.get? p
      rw [hr.1, hs.1]
    · exact hr.2

/-- Every topic surviving the final filter has at least one question. -/
lemma mem_finalize_ne (sd : List Topic) : ∀ t ∈ finalize sd, t.questions ≠ [] := by
  intro t ht
  unfold finalize at ht
  split_ifs at ht with hc
  · simp at ht
  · have hp := List.of_mem_filter ht
    intro hnil
    rw [hnil] at hp
    simp at hp

/-- Core of claim C6: when two adjacent lines are both non-blank topic
lines, the record created by the first one still has an empty question
list in the pre-filter output. -/
lemma c6core (images : List ImageAsset) (links : List Str) (L : List Str) (i : Nat)
    (hlen : i + 1 < L.length)
    (h1 : pyStrip (L.getD i []) ≠ [])
    (h2 : is_topic (pyStrip (L.getD i [])) = true)
    (h3 : pyStrip (L.getD (i + 1) []) ≠ [])
    (h4 : is_topic (pyStrip (L.getD (i + 1) [])) = true) :
    (endCommit images links (runLines images links initState L)).get?
        ((runLines images links initState (L.take (i + 1))).structured_data.length - 1)
      = some { topic := clean_topic (pyStrip (L.getD i [])), questions := [] } := by
  have hgi : L.get? i = some (L.getD i []) := by
    rcases hOpt : L.get? i with _ | v
    · rw [List.get?_eq_none] at hOpt
      omega
    · rw [List.getD_eq_get?, hOpt]
      rfl
  have hgi1 : L.get? (i + 1) = some (L.getD (i + 1) []) := by
    rcases hOpt : L.get? (i + 1) with _ | v
    · rw [List.get?_eq_none] at hOpt
      omega
    · rw [List.getD_eq_get?, hOpt]
      rfl
  have htake1 : L.take (i + 1) = L.take i ++ [L.getD i []] := by
    rw [List.take_succ, ← List.get?_eq_getElem?, hgi]
    rfl
  have htake2 : L.take (i + 2) = L.take (i + 1) ++ [L.getD (i + 1) []] := by
    rw [List.take_succ, ← List.get?_eq_getElem?, hgi1]
    rfl
  have hst1e : runLines images links initState (L.take (i + 1))
      = stepLine images links (runLines images links initState (L.take i)) (L.getD i []) := by
    rw [htake1, runLines_append, runLines_single]
  have hsd1 : (runLines images links initState (L.take (i + 1))).structured_data
      = (commitOnTopic images links (runLines images links initState (L.take i))).structured_data
        ++ [{ topic := clean_topic (pyStrip (L.getD i [])), questions := [] }] := by
    rw [hst1e, stepLine_topic _ _ _ _ h1 h2, afterTopic_sd]
  have hcq1 : (runLines images links initState (L.take (i + 1))).current_question = none := by
    rw [hst1e, stepLine_topic _ _ _ _ h1 h2, afterTopic_cq, commitOnTopic_cq]
  have hpos : 1 ≤ (runLines images links initState (L.take (i + 1))).structured_data.length := by
    rw [hsd1, List.length_append, List.length_singleton]
    omega
  have hget1 : (runLines images links initState (L.take (i + 1))).structured_data.get?
        ((runLines images links initState (L.take (i + 1))).structured_data.length - 1)
      = some { topic := clean_topic (pyStrip (L.getD i [])), questions := [] } := by
    rw [hsd1, List.length_append, List.length_singleton, Nat.add_sub_cancel]
    exact List.get?_concat_length _ _
  have hst2e : runLines images links initState (L.take (i + 2))
      = stepLine images links (runLines images links initState (L.take (i + 1)))
          (L.getD (i + 1) []) := by
    rw [htake2, runLines_append, runLines_single]
  have hsd2 : (runLines images links initState (L.take (i + 2))).structured_data
      = (runLines images links initState (L.take (i + 1))).structured_data
        ++ [{ topic := clean_topic (pyStrip (L.getD (i + 1) [])), questions := [] }] := by
    rw [hst2e, stepLine_topic _ _ _ _ h3 h4, afterTopic_sd,
      commitOnTopic_none _ _ _ hcq1]
  have hget2 : (runLines images links initState (L.take (i + 2))).structured_data.get?
        ((runLines images links initState (L.take (i + 1))).structured_data.length - 1)
      = some { topic := clean_topic (pyStrip (L.getD i [])), questions := [] } := by
    rw [hsd2, List.get?_append (by omega)]
    exact hget1
  have hlen2 : (runLines images links initState (L.take (i + 1))).structured_data.length - 1 + 1
      < (runLines images links initState (L.take (i + 2))).structured_data.length := by
    rw [hsd2, List.length_append, List.length_singleton]
    omega
  have hfull : runLines images links initState L
      = runLines images links (runLines images links initState (L.take (i + 2)))
          (L.drop (i + 2)) := by
    conv_lhs => rw [← List.take_append_drop (i + 2) L]
    rw [runLines_append]
  have hfr := runLines_frozen images links (L.drop (i + 2))
    (runLines images links initState (L.take (i + 2)))
    ((runLines images links initState (L.take (i + 1))).structured_data.length - 1) hlen2
  have hgetF : (runLines images links initState L).structured_data.get?
        ((runLines images links initState (L.take (i + 1))).structured_data.length - 1)
      = some { topic := clean_topic (pyStrip (L.getD i [])), questions := [] } := by
    rw [hfull, hfr.1]
    exact hget2
  have hlenF : (runLines images links initState (L.take (i + 1))).structured_data.length - 1 + 1
      < (runLines images links initState L).structured_data.length := by
    rw [hfull]
    exact hfr.2
  unfold endCommit
  cases hcq : (runLines images links initState L).current_question with
  | none => exact hgetF
  | some q =>
    dsimp only
    have hs := save_question_frozen (runLines images links initState L).structured_data
      (runLines images links initState L).current_topic q
      (runLines images links initState L).current_options images links
      (runLines images links initState L).image_counter
      ((runLines images links initState (L.take (i + 1))).structured_data.length - 1) hlenF
    rw [hs.1]
    exact hgetF

/-! ### No-question documents -/

lemma stepLine_noQ (images : List ImageAsset) (links : List Str) (st : PState) (rawLine : Str)
    (hq : is_topic (pyStrip rawLine) = true ∨ is_question (pyStrip rawLine) = false)
    (h1 : st.current_question = none)
    (h2 : ∀ t ∈ st.structured_data, t.questions = []) :
    (stepLine images links st rawLine).current_question = none ∧
      ∀ t ∈ (stepLine images links st rawLine).structured_data, t.questions = [] := by
  unfold stepLine
  split_ifs with h0 ht hqq hopt hans hcont
  · exact ⟨h1, h2⟩
  · constructor
    · rw [afterTopic_cq, commitOnTopic_cq]
    · rw [afterTopic_sd, commitOnTopic_none images links st h1]
      intro t htm
      rcases List.mem_append.mp htm with hm | hm
      · exact h2 t hm
      · simp only [List.mem_singleton] at hm
        rw [hm]
  · rcases hq with hq | hq
    · exact absurd hq ht
    · exact absurd hqq (by simp [hq])
  · exfalso
    rw [h1] at hopt
    simp at hopt
  · exfalso
    rw [h1] at hans
    simp at hans
  · exfalso
    rw [h1] at hcont
    simp at hcont
  · exact ⟨h1, h2⟩

lemma runLines_noQ (images : List ImageAsset) (links : List Str) :
    ∀ (lines : List Str) (st : PState),
      (∀ l ∈ lines, is_topic (pyStrip l) = true ∨ is_question (pyStrip l) = false) →
      st.current_question = none →
      (∀ t ∈ st.structured_data, t.questions = []) →
      (runLines images links st lines).current_question = none ∧
        ∀ t ∈ (runLines images links st lines).structured_data, t.questions = [] := by
  intro lines
  induction lines with
  | nil => exact fun st _ h1 h2 => ⟨h1, h2⟩
  | cons l ls ih =>
    intro st hq h1 h2
    have hstep := stepLine_noQ images links st l (hq l (by simp)) h1 h2
    have hrest := ih (stepLine images links st l)
      (fun l2 hl2 => hq l2 (by simp [hl2])) hstep.1 hstep.2
    simpa [runLines, List.foldl_cons] using hrest

/-! ### Normalizer idempotence helpers -/

lemma pyStrip_clean_option (x : Str) : pyStrip (clean_option x) = clean_option x := by
  unfold clean_option
  exact pyStrip_idem _

lemma pyStrip_clean_question (x : Str) : pyStrip (clean_question x) = clean_question x := by
  unfold clean_question
  exact pyStrip_idem _

lemma pyStrip_clean_answer (x : Str) : pyStrip (clean_answer x) = clean_answer x := by
  unfold clean_answer
  exact pyStrip_idem _

lemma clean_option_nomatch (y : Str) (h : optMarker y = none) :
    clean_option y = pyStrip y := by
  unfold clean_option
  rw [h]

lemma clean_question_nomatch (y : Str) (h1 : qm1 y = none) (h2 : qm2 y = none) :
    clean_question y = pyStrip y := by
  unfold clean_question
  rw [h1]
  dsimp only
  rw [h2]

lemma clean_answer_nomatch (y : Str) (h : ansMarker y = none) :
    clean_answer y = pyStrip y := by
  unfold clean_answer
  rw [h]

/-! ## Claims -/

/-- C1, counterexample: on c1txt the first question is committed by the
topic line AAA BBB with index 0 and no counter increment, so the second
question, committed at end of input, also receives index 0: two distinct
committed questions share the image slot i0, refuting the claim that the
k-th committed question is correlated with index k. -/
theorem C1_counterexample :
    (parse_mcqs c1txt c1imgs []).map (fun t => t.questions.map Question.image)
      = [[some (chars "i0")], [some (chars "i0")]] := by decide

/-- C1 (amended): the correlator index passed at each commit equals the
number of earlier commits that were triggered by a question line; commits
triggered by a topic line or by end of input do not advance the counter,
so a commit that follows such a commit reuses the same index. -/
theorem C1_theorem (text : Str) (images : List ImageAsset) (links : List Str)
    (k : Nat) (e : CommitKind × Nat)
    (h : (parse_trace text images links).get? k = some e) :
    e.2 = countQ ((parse_trace text images links).take k) :=
  goodTrace_parse text images links k e h

/-- C1, witness: the commit trace of c1txt is a topic-line commit followed
by the end-of-input commit, both with index 0. -/
theorem C1_witness :
    (parse_trace c1txt c1imgs []).get? 1 = some (CommitKind.endOfInput, 0)
    ∧ (CommitKind.endOfInput, (0 : Nat)).2 = countQ ((parse_trace c1txt c1imgs []).take 1) :=
  ⟨by decide, C1_theorem c1txt c1imgs [] 1 (CommitKind.endOfInput, 0) (by decide)⟩

/-- C2, counterexample: with two answer lines, the stored answer of the
single question is b, the normalization of the LAST answer line, although
the first answer line normalizes to a: a later answer line overwrites the
stored value, refuting the first-wins claim. -/
theorem C2_counterexample :
    (parse_mcqs c2txt [] []).map (fun t => t.questions.map Question.answer)
      = [[some (chars "b")]]
    ∧ clean_answer (chars "Answer: a") = chars "a" :=
  ⟨by decide, by decide⟩

/-- C2 (amended): processing a line classified as Answer while a question
is open stores the normalized line as the answer regardless of any
previously stored value, so the LAST answer line encountered for a
question wins. -/
theorem C2_theorem (images : List ImageAsset) (links : List Str) (st : PState)
    (q : Question) (rawLine : Str)
    (hq : st.current_question = some q)
    (h0 : pyStrip rawLine ≠ [])
    (ht : is_topic (pyStrip rawLine) = false)
    (hqn : is_question (pyStrip rawLine) = false)
    (ho : is_option (pyStrip rawLine) = false)
    (ha : is_answer (pyStrip rawLine) = true) :
    (stepLine images links st rawLine).current_question
      = some { q with answer := some (clean_answer (pyStrip rawLine)) } := by
  unfold stepLine
  rw [if_neg h0,
    if_neg (show ¬is_topic (pyStrip rawLine) = true by simp [ht]),
    if_neg (show ¬is_question (pyStrip rawLine) = true by simp [hqn]),
    if_neg (show ¬(st.current_question.isSome && is_option (pyStrip rawLine)) = true by
      simp [ho]),
    if_pos (show (st.current_question.isSome && is_answer (pyStrip rawLine)) = true by
      simp [hq, ha])]
  unfold setAnswer
  rw [hq]

/-- C2, witness: an answer line overwrites the answer a already stored in
c2q with b. -/
theorem C2_witness :
    (stepLine [] [] c2st (chars "Answer: b")).current_question
      = some { c2q with answer := some (clean_answer (pyStrip (chars "Answer: b"))) } :=
  C2_theorem [] [] c2st c2q (chars "Answer: b") rfl (by decide) (by decide) (by decide)
    (by decide) (by decide)

/-- C3: the end-to-end scenario of the specification: one topic named
ONE KINEMATICS with the single question, its three options in order, the
answer b, and no image or video link. -/
theorem C3_theorem :
    parse_mcqs c3txt [] []
      = [{ topic := chars "ONE KINEMATICS",
           questions := [{ question := chars "What is speed?",
                           options := [chars "Distance", chars "Distance/Time",
                                       chars "Time/Distance"],
                           answer := some (chars "b"),
                           image := none,
                           video_link := none }] }] := by decide

/-- C4: asset correlation at index k assigns images[k] and links[k] when
in range and otherwise leaves the fields unset, without touching any
other field of the question; a short asset list is not an error. -/
theorem C4_theorem (q : Question) (images : List ImageAsset) (links : List Str) (k : Nat)
    (hi : q.image = none) (hv : q.video_link = none) :
    (correlate_assets q images links k).image = (images.get? k).map ImageAsset.path
    ∧ (correlate_assets q images links k).video_link = links.get? k
    ∧ (correlate_assets q images links k).question = q.question
    ∧ (correlate_assets q images links k).options = q.options
    ∧ (correlate_assets q images links k).answer = q.answer := by
  unfold correlate_assets
  rcases ha : images.get? k with _ | a <;> rcases hu : links.get? k with _ | u <;>
    simp [hi, hv]

/-- C4, witness: with one image and no links, index 1 is out of range on
both sides, and the question is otherwise unchanged. -/
theorem C4_witness :
    (correlate_assets c4q c4imgs [] 1).image = (c4imgs.get? 1).map ImageAsset.path
    ∧ (correlate_assets c4q c4imgs [] 1).video_link = ([] : List Str).get? 1
    ∧ (correlate_assets c4q c4imgs [] 1).question = c4q.question
    ∧ (correlate_assets c4q c4imgs [] 1).options = c4q.options
    ∧ (correlate_assets c4q c4imgs [] 1).answer = c4q.answer :=
  C4_theorem c4q c4imgs [] 1 rfl rfl

/-- C5, counterexample: on c5txt the question line normalizes to the
empty string and the following continuation line foo: bar (which matches
no classifier) is discarded instead of being appended to the question
text, refuting the claim that a continuation with no accumulated options
is always appended to the open question. -/
theorem C5_counterexample :
    (parse_mcqs c5txt [] []).map (fun t => t.questions.map Question.question)
      = [[([] : Str)]]
    ∧ is_topic (pyStrip (chars "foo: bar")) = false
    ∧ is_question (pyStrip (chars "foo: bar")) = false
    ∧ is_option (pyStrip (chars "foo: bar")) = false
    ∧ is_answer (pyStrip (chars "foo: bar")) = false := by
  refine ⟨by decide, by decide, by decide, by decide, by decide⟩

/-- C5 (amended): for a continuation line under an open question, a
non-empty options list receives the chunk on its last option; otherwise
the chunk is appended to the question text only when that text is
non-empty, and is discarded when the question text is empty. -/
theorem C5_theorem (images : List ImageAsset) (links : List Str) (st : PState)
    (q : Question) (rawLine : Str)
    (hq : st.current_question = some q)
    (h0 : pyStrip rawLine ≠ [])
    (ht : is_topic (pyStrip rawLine) = false)
    (hqn : is_question (pyStrip rawLine) = false)
    (ho : is_option (pyStrip rawLine) = false)
    (ha : is_answer (pyStrip rawLine) = false) :
    stepLine images links st rawLine
      = (if st.current_options.isEmpty then
           (if q.question.isEmpty then st
            else { st with
                   current_question :=
                     some { q with question := q.question ++ ' ' :: pyStrip rawLine } })
         else { st with
                current_options :=
                  appendToLastStr st.current_options (' ' :: pyStrip rawLine) }) := by
  have hstep : stepLine images links st rawLine = continueLine st (pyStrip rawLine) := by
    unfold stepLine
    rw [if_neg h0,
      if_neg (show ¬is_topic (pyStrip rawLine) = true by simp [ht]),
      if_neg (show ¬is_question (pyStrip rawLine) = true by simp [hqn]),
      if_neg (show ¬(st.current_question.isSome && is_option (pyStrip rawLine)) = true by
        simp [ho]),
      if_neg (show ¬(st.current_question.isSome && is_answer (pyStrip rawLine)) = true by
        simp [ha]),
      if_pos (show (st.current_question.isSome && !is_option (pyStrip rawLine)
          && !is_answer (pyStrip rawLine)) = true by simp [hq, ho, ha])]
  rw [hstep]
  unfold continueLine
  rw [hq]
  cases hop : st.current_options.isEmpty with
  | true =>
    simp only [hop, Bool.not_true, Bool.false_eq_true, if_false, if_true]
  | false =>
    simp only [hop, Bool.not_false, if_true, Bool.false_eq_true, if_false]

/-- C5, witness: a continuation under c5q (no options, non-empty question
text) is appended to the question text with one separating space. -/
theorem C5_witness :
    stepLine [] [] c5st (chars "foo: bar")
      = (if c5st.current_options.isEmpty then
           (if c5q.question.isEmpty then c5st
            else { c5st with
                   current_question :=
                     some { c5q with
                            question := c5q.question ++ ' ' :: pyStrip (chars "foo: bar") } })
         else { c5st with
                current_options :=
                  appendToLastStr c5st.current_options (' ' :: pyStrip (chars "foo: bar")) }) :=
  C5_theorem [] [] c5st c5q (chars "foo: bar") rfl (by decide) (by decide) (by decide)
    (by decide) (by decide)

/-- C6, counterexample: on c6txt the lines AAA BBB and CCC DDD are
adjacent topic lines, and the record created by the SECOND one, CCC DDD,
receives the question and appears in the output; it is the record of the
first topic line that is empty and dropped, refuting the claim as
stated. -/
theorem C6_counterexample :
    parse_mcqs c6txt [] []
      = [{ topic := chars "CCC DDD",
           questions := [{ question := chars "q?", options := [], answer := none,
                           image := none, video_link := none }] }]
    ∧ is_topic (pyStrip ((splitOnNl c6txt).getD 0 [])) = true
    ∧ is_topic (pyStrip ((splitOnNl c6txt).getD 1 [])) = true := by
  refine ⟨by decide, by decide, by decide⟩

/-- C6 (amended): when a topic line is immediately followed by another
topic line, the record created by the FIRST topic line still has an empty
question list in the pre-filter output, and every record of the final
output has a non-empty question list, so the first record is absent from
the final output. -/
theorem C6_theorem (text : Str) (images : List ImageAsset) (links : List Str) (i : Nat)
    (hlen : i + 1 < (splitOnNl text).length)
    (h1 : pyStrip ((splitOnNl text).getD i []) ≠ [])
    (h2 : is_topic (pyStrip ((splitOnNl text).getD i [])) = true)
    (h3 : pyStrip ((splitOnNl text).getD (i + 1) []) ≠ [])
    (h4 : is_topic (pyStrip ((splitOnNl text).getD (i + 1) [])) = true) :
    (parse_pre text images links).get?
        ((runLines images links initState
            ((splitOnNl text).take (i + 1))).structured_data.length - 1)
      = some { topic := clean_topic (pyStrip ((splitOnNl text).getD i [])), questions := [] }
    ∧ ∀ t ∈ parse_mcqs text images links, t.questions ≠ [] :=
  ⟨c6core images links (splitOnNl text) i hlen h1 h2 h3 h4,
   mem_finalize_ne (parse_pre text images links)⟩

/-- C6, witness: on c6txt with i = 0, the record of the first topic line
AAA BBB is empty in the pre-filter output and every final topic has
questions. -/
theorem C6_witness :
    (0 + 1 < (splitOnNl c6txt).length)
    ∧ ((parse_pre c6txt [] []).get?
          ((runLines [] [] initState ((splitOnNl c6txt).take (0 + 1))).structured_data.length - 1)
        = some { topic := clean_topic (pyStrip ((splitOnNl c6txt).getD 0 [])), questions := [] }
      ∧ ∀ t ∈ parse_mcqs c6txt [] [], t.questions ≠ []) :=
  ⟨by decide,
   C6_theorem c6txt [] [] 0 (by decide) (by decide) (by decide) (by decide) (by decide)⟩

/-- C7, counterexample: none of the three normalizers is idempotent on
every string: a second application strips a second marker from the
already-normalized text. -/
theorem C7_counterexample :
    clean_answer (clean_answer (chars "answer: answer: b"))
        ≠ clean_answer (chars "answer: answer: b")
    ∧ clean_option (clean_option (chars "(a) b) x")) ≠ clean_option (chars "(a) b) x")
    ∧ clean_question (clean_question (chars "Q1. Q2. x")) ≠ clean_question (chars "Q1. Q2. x") := by
  refine ⟨by decide, by decide, by decide⟩

/-- C7 (amended): each normalizer is idempotent exactly on the strings
whose normalized form no longer begins with the corresponding stripped
marker pattern: under that condition a second application only re-strips
whitespace and is the identity. -/
theorem C7_theorem (x : Str) :
    (optMarker (clean_option x) = none →
      clean_option (clean_option x) = clean_option x)
    ∧ (qm1 (clean_question x) = none → qm2 (clean_question x) = none →
        clean_question (clean_question x) = clean_question x)
    ∧ (ansMarker (clean_answer x) = none →
        clean_answer (clean_answer x) = clean_answer x) := by
  refine ⟨fun h => ?_, fun h1 h2 => ?_, fun h => ?_⟩
  · rw [clean_option_nomatch _ h, pyStrip_clean_option]
  · rw [clean_question_nomatch _ h1 h2, pyStrip_clean_question]
  · rw [clean_answer_nomatch _ h, pyStrip_clean_answer]

/-- C7, witness: on c7str all three normalizers are idempotent. -/
theorem C7_witness :
    clean_option (clean_option c7str) = clean_option c7str
    ∧ clean_question (clean_question c7str) = clean_question c7str
    ∧ clean_answer (clean_answer c7str) = clean_answer c7str :=
  ⟨(C7_theorem c7str).1 (by decide),
   (C7_theorem c7str).2.1 (by decide) (by decide),
   (C7_theorem c7str).2.2 (by decide)⟩

/-- C8: when no line of the document classifies as a question — under the
loop's priority, a line classifies as Question only when the topic check
fails and the question predicate holds, so the hypothesis admits lines
satisfying both predicates, which classify as Topic — no question is ever
opened, every topic record stays empty, and the final filter leaves the
empty sequence. -/
theorem C8_theorem (text : Str) (images : List ImageAsset) (links : List Str)
    (h : ∀ l ∈ splitOnNl text,
      is_topic (pyStrip l) = true ∨ is_question (pyStrip l) = false) :
    parse_mcqs text images links = [] := by
  have hr := runLines_noQ images links (splitOnNl text) initState h rfl
    (fun t ht => absurd ht (by simp [initState]))
  have hf : (runLines images links initState (splitOnNl text)).structured_data.filter
      (fun t => !t.questions.isEmpty) = [] := by
    rw [List.filter_eq_nil]
    intro a ha
    simp [hr.2 a ha]
  unfold parse_mcqs parse_pre endCommit
  rw [hr.1]
  unfold finalize
  rw [hf]
  simp

/-- C8, witness: no line of c8txt classifies as a question — its middle
line WHAT IS SPEED? satisfies the question predicate but classifies as
Topic by priority — and the document parses to the empty sequence. -/
theorem C8_witness :
    (∀ l ∈ splitOnNl c8txt,
      is_topic (pyStrip l) = true ∨ is_question (pyStrip l) = false)
    ∧ is_question (pyStrip ((splitOnNl c8txt).getD 1 [])) = true
    ∧ parse_mcqs c8txt [] [] = [] :=
  ⟨by decide, by decide, C8_theorem c8txt [] [] (by decide)⟩

/-- C9, counterexample: a failure of the collaborators is caught by the
try/except of extract_mcqs_from_pdf and reported as the empty list, the
very value that reports no MCQs found, refuting the claim that the two
outcomes are distinct. -/
theorem C9_counterexample :
    extract_mcqs_from_pdf (Except.error (chars "read failure")) = []
    ∧ extract_mcqs_from_pdf (Except.ok ([], [], [])) = [] :=
  ⟨rfl, rfl⟩

/-- C9 (amended): extract_mcqs_from_pdf maps every collaborator failure
to the empty list, which is indistinguishable from the no-MCQs-found
result of an empty document. -/
theorem C9_theorem (e : Str) :
    extract_mcqs_from_pdf (Except.error e)
      = extract_mcqs_from_pdf (Except.ok ([], [], [])) := rfl

/-- C10: the checked parser, in which the line[0] access of is_topic, the
last-option access of the continuation branch and the last-topic access
of save_question all fail explicitly with none, returns some of the
parsed output on every input text and every pair of asset lists: no input
reaches an out-of-bounds access. -/
theorem C10_theorem (text : Str) (images : List ImageAsset) (links : List Str) :
    parse_mcqsC text images links = some (parse_mcqs text images links) := by
  unfold parse_mcqsC parse_mcqs parse_pre
  rw [runLinesC_eq]
  cases h : (runLines images links initState (splitOnNl text)).current_question with
  | none => simp [endCommit, h]
  | some q => simp [endCommit, h, save_questionC_eq]

end Extractor
